import Mathlib

/- Verification of the SSUI finite-state-machine interactor.

   Shallow embedding of the TypeScript sources: Region, EventSpec, Action,
   Transition, State, FSM and FSMInteractor.  Mutable object state is passed
   explicitly; console output and error reporting (Err.emit) are modelled as
   accumulated lists of strings; JavaScript object identity of Region objects
   is modelled by a numeric id field. -/

namespace SSUI

/-- Event types of the system, from the EventType declaration in EventSpec.ts. -/
inductive EventType where
  | press
  | release
  | release_none
  | enter
  | exit
  | move_inside
  | any
  | nevermatch
  deriving DecidableEq

/-- String rendering of an event type.  In the TypeScript source the event types are
exactly these strings; print_event actions concatenate them into console output. -/
def EventType.str : EventType → String
  | EventType.press => "press"
  | EventType.release => "release"
  | EventType.release_none => "release_none"
  | EventType.enter => "enter"
  | EventType.exit => "exit"
  | EventType.move_inside => "move_inside"
  | EventType.any => "any"
  | EventType.nevermatch => "nevermatch"

/-- Region data (the Region class is one of the repository files not included under src;
its attributes are used throughout the included files and are listed in the spec data
model: a unique name, position (x, y), size (w, h) and a mutable image reference).
The field id models JavaScript object identity: the included sources compare Region
objects with reference equality (includes, ===).  imageLoc is the initial image
reference; the current image reference of a live FSM is kept in FSM.images keyed by id. -/
structure Region where
  id : Nat
  name : String
  x : Int
  y : Int
  w : Int
  h : Int
  imageLoc : String
  deriving DecidableEq

/-- EventSpec data, from EventSpec.ts: an event type, a region name, and the region
bound later by bindRegion (absent until then). -/
structure EventSpec where
  evtType : EventType
  regionName : String
  region : Option Region
  deriving DecidableEq

/-- EventSpec.match from out/EventSpec.js.  The source computes two boolean checkers
(event_match, reg_match) and then branches on its own event type; the JavaScript
truthiness test on this.evtType is always true since every event type is a non-empty
string, so the trailing return false of the source is unreachable and not modelled. -/
def EventSpec.matches (s : EventSpec) (evtType : EventType) (regn : Option Region) : Bool :=
  let event_match := s.evtType == evtType
  let reg_match := s.region == regn ||
    (s.regionName == "*" && s.region == (Option.none : Option Region))
  if s.evtType == EventType.nevermatch then false
  else if s.evtType == EventType.any then reg_match
  else if s.evtType == EventType.release_none then event_match
  else event_match && reg_match

/-- EventSpec.bindRegion from out/EventSpec.js.  Wildcard clears the bound region; a
first region whose name equals regionName is bound; on lookup failure the bound region
is left unchanged and an error message is emitted unless the event type is nevermatch,
or is release_none or any with an empty region name.  The second component models the
messages passed to Err.emit. -/
def EventSpec.bindRegion (s : EventSpec) (regionList : List Region) :
    EventSpec × List String :=
  if s.regionName == "*" then ({ s with region := Option.none }, [])
  else
    match regionList.find? (fun reg => s.regionName == reg.name) with
    | Option.some reg => ({ s with region := Option.some reg }, [])
    | Option.none =>
      if s.evtType == EventType.nevermatch then (s, [])
      else if (s.evtType == EventType.release_none || s.evtType == EventType.any)
          && s.regionName == "" then (s, [])
      else (s, ["Region " ++ s.regionName ++
                " in event specification does not match any region."])

/-- Action types, from the actionTypeStrings declaration in out/Action.js. -/
inductive ActionType where
  | set_image
  | clear_image
  | none
  | print
  | print_event
  deriving DecidableEq

/-- Action data, from out/Action.js: an action type, a region name, a string parameter,
and the region bound later by bindRegion. -/
structure Action where
  actType : ActionType
  onRegionName : String
  param : String
  onRegion : Option Region
  deriving DecidableEq

/-- Write a new image reference for the region with the given identity.  This models the
JavaScript assignment to the mutable imageLoc field of a Region object. -/
def updateImage (images : List (Nat × String)) (rid : Nat) (v : String) :
    List (Nat × String) :=
  images.map (fun p => if p.1 == rid then (p.1, v) else p)

/-- Action.execute from out/Action.js, acting on the explicit image state and console
output.  set_image and clear_image write the bound region image slot (a no-op when no
region is bound); print and print_event append console lines. -/
def Action.execute (a : Action) (evtType : EventType) (evtReg : Option Region)
    (images : List (Nat × String)) (output : List String) :
    List (Nat × String) × List String :=
  match a.actType with
  | ActionType.none => (images, output)
  | ActionType.set_image =>
    match a.onRegion with
    | Option.some r => (updateImage images r.id a.param, output)
    | Option.none => (images, output)
  | ActionType.clear_image =>
    match a.onRegion with
    | Option.some r => (updateImage images r.id "", output)
    | Option.none => (images, output)
  | ActionType.print => (images, output ++ [a.param])
  | ActionType.print_event =>
    let event_dump :=
      match evtReg with
      | Option.some r => evtType.str ++ "(" ++ r.name ++ ")"
      | Option.none => evtType.str ++ "(undefined)"
    (images, output ++ [a.param ++ event_dump])

/-- Action.bindRegion from out/Action.js: bind the first region whose name equals
onRegionName; on lookup failure, the three region-free action types clear the bound
region silently, every other type reports an error. -/
def Action.bindRegion (a : Action) (regionList : List Region) : Action × List String :=
  match regionList.find? (fun reg => a.onRegionName == reg.name) with
  | Option.some reg => ({ a with onRegion := Option.some reg }, [])
  | Option.none =>
    if a.actType == ActionType.none || a.actType == ActionType.print
        || a.actType == ActionType.print_event then
      ({ a with onRegion := Option.none }, [])
    else (a, ["Region " ++ a.onRegionName ++ " in action does not match any region."])

/-- Transition data.  The Transition class is one of the repository files not included
under src; the spec data model describes it as pairing one EventSpec with an ordered
list of Actions and a target-state name resolved to a target State reference.  The
resolved target is modelled as an index into the state list of the owning FSM, which is
how the JavaScript State object reference is realised in the embedding. -/
structure Transition where
  onEvent : EventSpec
  actions : List Action
  targetName : String
  target : Option Nat
  deriving DecidableEq

/-- Modelled from the spec: Transition.match (the Transition class is not under src).
A transition matches exactly when its trigger EventSpec matches, per the spec: the
first Transition whose EventSpec matches is taken. -/
def Transition.matches (t : Transition) (evtType : EventType) (regn : Option Region) :
    Bool :=
  t.onEvent.matches evtType regn

/-- Modelled from the spec: Transition.bindTarget (the Transition class is not under
src).  The finalization pass resolves every Transition target-state name against the
state list; an unresolved target state name is reported.  The resolved target is the
index of the first state whose name matches. -/
def Transition.bindTarget (t : Transition) (states : List String) :
    Transition × List String :=
  match states.findIdx? (fun nm => nm == t.targetName) with
  | Option.some i => ({ t with target := Option.some i }, [])
  | Option.none => (t, ["Unresolved target state " ++ t.targetName ++ " in transition."])

/-- State data.  The State class is one of the repository files not included under src;
the spec data model describes it as a name with an ordered list of Transitions. -/
structure State where
  name : String
  transitions : List Transition
  deriving DecidableEq

/-- The FSM, from the FSM class in out/FSMInteractor.js.  startState and currentState
are indices into states, modelling the JavaScript State object references (states[0]
is undefined for an empty state list, modelled by Option).  images carries the mutable
image reference of each Region keyed by its identity; output models console.log. -/
structure FSM where
  regions : List Region
  states : List State
  startState : Option Nat
  currentState : Option Nat
  images : List (Nat × String)
  output : List String
  deriving DecidableEq

/-- One step of the finalize pass of the FSM: bind one state, resolving the target and
the event spec of every transition and binding every action, in declared order,
collecting the emitted error messages. -/
def State.finalize (regions : List Region) (stateNames : List String) (st : State) :
    State × List String :=
  let r := st.transitions.foldl
    (fun (acc : List Transition × List String) trans =>
      let bt := trans.bindTarget stateNames
      let be := bt.1.onEvent.bindRegion regions
      let t2 : Transition := { bt.1 with onEvent := be.1 }
      let ra := t2.actions.foldl
        (fun (acc2 : List Action × List String) act =>
          let ba := act.bindRegion regions
          (acc2.1 ++ [ba.1], acc2.2 ++ ba.2)) ([], [])
      (acc.1 ++ [{ t2 with actions := ra.1 }], acc.2 ++ bt.2 ++ be.2 ++ ra.2))
    ([], [])
  ({ st with transitions := r.1 }, r.2)

/-- The FSM constructor together with its finalize pass, from out/FSMInteractor.js:
startState is states[0] (absent when the state list is empty), currentState starts
equal to startState, and every transition of every state is bound.  Region parent
back-pointers are pure upward notification links and are not modelled.  The second
component models the messages passed to Err.emit during binding. -/
def FSM.construct (regions : List Region) (states : List State) : FSM × List String :=
  let names := states.map State.name
  let r := states.foldl
    (fun (acc : List State × List String) st =>
      let fs := State.finalize regions names st
      (acc.1 ++ [fs.1], acc.2 ++ fs.2)) ([], [])
  let start := if states.isEmpty then Option.none else Option.some 0
  ({ regions := regions, states := r.1, startState := start, currentState := start,
     images := regions.map (fun reg => (reg.id, reg.imageLoc)), output := [] }, r.2)

/-- FSM.reset from out/FSMInteractor.js: restore currentState to startState. -/
def FSM.reset (m : FSM) : FSM := { m with currentState := m.startState }

/-- A record of one executed action: the action together with the triggering event type
and region it received. -/
abbrev Invocation := Action × EventType × Option Region

/-- Execute a list of actions in order against the FSM state (the forEach loop inside
FSM.actOnEvent). -/
def FSM.runActions (m : FSM) (acts : List Action) (evtType : EventType)
    (reg : Option Region) : FSM :=
  acts.foldl (fun acc a =>
    let r := a.execute evtType reg acc.images acc.output
    { acc with images := r.1, output := r.2 }) m

/-- The transition scan loop of FSM.actOnEvent: walk the transitions in declared order;
at the first match, execute its actions in order, move to its target and stop; when
none matches, fall through leaving everything unchanged.  The second component is the
trace of executed actions with the arguments they received. -/
def FSM.actLoop (m : FSM) (evtType : EventType) (reg : Option Region) :
    List Transition → FSM × List Invocation
  | [] => (m, [])
  | tr :: rest =>
    if tr.matches evtType reg then
      ({ m.runActions tr.actions evtType reg with currentState := tr.target },
       tr.actions.map (fun a => (a, evtType, reg)))
    else m.actLoop evtType reg rest

/-- FSM.actOnEvent from out/FSMInteractor.js: bail out when the current state was never
bound (a bad json FSM), otherwise scan the transitions of the current state. -/
def FSM.actOnEvent (m : FSM) (evtType : EventType) (reg : Option Region) :
    FSM × List Invocation :=
  match m.currentState with
  | Option.none => (m, [])
  | Option.some i =>
    match m.states[i]? with
    | Option.none => (m, [])
    | Option.some st => m.actLoop evtType reg st.transitions

/-- An event as delivered to FSM.actOnEvent: an event type with an optional region. -/
abbrev Evt := EventType × Option Region

/-- Deliver one event to the FSM via actOnEvent while logging the delivered event.
This instruments the sequential actOnEvent calls of dispatchRawEvent so that the order
of delivered events is observable. -/
def FSM.send (p : FSM × List Evt) (evtType : EventType) (reg : Option Region) :
    FSM × List Evt :=
  ((p.1.actOnEvent evtType reg).1, p.2 ++ [(evtType, reg)])

/-- The raw pointer event kinds taken by dispatchRawEvent in FSMInteractor.ts. -/
inductive RawEvent where
  | press
  | move
  | release
  deriving DecidableEq

/-- The interactor, from FSMInteractor.ts: a position, an optional FSM, and the pick
result of the previous dispatchRawEvent call (lastPickedRegions, initially empty). -/
structure FSMInteractor where
  x : Int
  y : Int
  fsm : Option FSM
  lastPickedRegions : List Region
  deriving DecidableEq

/-- FSMInteractor.pick from FSMInteractor.ts: collect, in declared order, every region
whose bounding box contains the point with all four edges inclusive, then reverse the
list. -/
def FSMInteractor.pick (it : FSMInteractor) (localX localY : Int) : List Region :=
  match it.fsm with
  | Option.none => []
  | Option.some m =>
    (m.regions.filter (fun reg =>
      decide (reg.x ≤ localX ∧ localX ≤ reg.x + reg.w ∧
              reg.y ≤ localY ∧ localY ≤ reg.y + reg.h))).reverse

/-- FSMInteractor.dispatchRawEvent from FSMInteractor.ts.  With no FSM installed it is
a no-op.  Otherwise: pick the current regions, diff against lastPickedRegions, deliver
exit events for the left regions (in previous-list order), enter events for the newly
entered regions (in current-list order), then one kind-dependent event per current
region, then release_none when a release happens over no region; finally store the
current pick list.  The second component is the log of events delivered to
FSM.actOnEvent, in delivery order. -/
def FSMInteractor.dispatchRawEvent (it : FSMInteractor) (what : RawEvent)
    (localX localY : Int) : FSMInteractor × List Evt :=
  match it.fsm with
  | Option.none => (it, [])
  | Option.some m0 =>
    let currentlist := it.pick localX localY
    let prevlist := it.lastPickedRegions
    let enter_region := currentlist.filter (fun r => !(prevlist.contains r))
    let exit_region := prevlist.filter (fun r => !(currentlist.contains r))
    let s1 := exit_region.foldl
      (fun s region => FSM.send s EventType.exit (Option.some region)) (m0, [])
    let s2 := enter_region.foldl
      (fun s region => FSM.send s EventType.enter (Option.some region)) s1
    let s3 := currentlist.foldl
      (fun s reg =>
        match what with
        | RawEvent.move => FSM.send s EventType.move_inside (Option.some reg)
        | RawEvent.press => FSM.send s EventType.press (Option.some reg)
        | RawEvent.release => FSM.send s EventType.release (Option.some reg)) s2
    let s4 := if what == RawEvent.release && currentlist.length == 0 then
        FSM.send s3 EventType.release_none Option.none
      else s3
    ({ it with fsm := Option.some s4.1, lastPickedRegions := currentlist }, s4.2)

/-- A record of one region rendering request issued by FSMInteractor.draw: the region,
the translated drawing origin, and the debugging flag handed to Region.draw. -/
structure RenderCall where
  region : Region
  originX : Int
  originY : Int
  showDebugging : Bool
  deriving DecidableEq

/-- FSMInteractor.draw from FSMInteractor.ts, modelled as the list of rendering
requests it issues.  The loop walks the regions in declared order, translates the
drawing origin by the region position, and then reassigns showDebugging to true
immediately before every reg.draw call, so the flag delivered to every region is true
whatever the caller passed.  The ctx.save and ctx.restore bracketing is modelled by the
per-call origin. -/
def FSMInteractor.draw (it : FSMInteractor) (showDebugging : Bool) : List RenderCall :=
  match it.fsm with
  | Option.none => []
  | Option.some m =>
    m.regions.map (fun reg =>
      { region := reg, originX := reg.x, originY := reg.y, showDebugging := true })

/-- A description as handed to FSM.fromJson.  Option.none models a field that is not an
array; Region.fromJson and State.fromJson (repository files not under src) are
modelled from the spec as identity on already-validated records, since the description
loader is specified to supply validated, typed records. -/
structure FSM_json where
  regions : Option (List Region)
  states : Option (List State)
  deriving DecidableEq

/-- The duplicate-name collection loop of FSM.fromJson: walk the declarations in order,
skipping (with an error message) any whose name was already seen. -/
def collectNamed (name : α → String) : List α → List String → List α × List String
  | [], _ => ([], [])
  | x :: rest, seen =>
    if seen.contains (name x) then
      let r := collectNamed name rest seen
      (r.1, ("Duplicate declaration " ++ name x ++ " in FSM") :: r.2)
    else
      let r := collectNamed name rest (name x :: seen)
      (x :: r.1, r.2)

/-- FSM.fromJson from out/FSMInteractor.js: collect the region declarations (reporting
a non-array list and skipping duplicates), collect the state declarations (reporting a
non-array list, an empty list, and skipping duplicates), and then construct the FSM
from whatever was collected.  Errors are reported but never abort: the constructor is
always reached.  The second component models the messages passed to Err.emit. -/
def FSM.fromJson (d : FSM_json) : FSM × List String :=
  let rr : List Region × List String :=
    match d.regions with
    | Option.none => ([], ["Region list is not an array in FSM.fromJson()"])
    | Option.some rs => collectNamed (fun (r : Region) => r.name) rs []
  let ss : List State × List String :=
    match d.states with
    | Option.none => ([], ["State list is not an array in FSM.fromJson()"])
    | Option.some sts =>
      let emptyErr := if sts.isEmpty then ["No states provide for FSM in FSM.fromJson()"]
        else []
      let c := collectNamed (fun (st : State) => st.name) sts []
      (c.1, emptyErr ++ c.2)
  let built := FSM.construct rr.1 ss.1
  (built.1, rr.2 ++ ss.2 ++ built.2)

/-- The outcome of the fetch-and-parse prefix of startLoadFromJson: a failed fetch (a
non-ok response), a parse failure of response.json, or a parsed description. -/
inductive LoadResult where
  | fetchFailed
  | parseError
  | parsed (data : FSM_json)
  deriving DecidableEq

/-- FSMInteractor.startLoadFromJson from FSMInteractor.ts, after the suspend points.
A failed fetch reports an error and clears the FSM reference.  A parse failure throws
out of the async body, which has no handler: the interactor is left unchanged and
nothing is reported.  A parsed description is handed to FSM.fromJson and the resulting
FSM is installed unconditionally (the subsequent damage call is a pure notification and
is not modelled).  The second component models the messages passed to Err.emit. -/
def FSMInteractor.startLoadFromJson (it : FSMInteractor) (r : LoadResult) :
    FSMInteractor × List String :=
  match r with
  | LoadResult.fetchFailed => ({ it with fsm := Option.none }, ["Load of FSM failed"])
  | LoadResult.parseError => (it, [])
  | LoadResult.parsed data =>
    let built := FSM.fromJson data
    ({ it with fsm := Option.some built.1 }, built.2)

/-- Specification-side predicate for claim C2: the spec evtType equals the event
evtType. -/
def eventMatchesSpec (s : EventSpec) (evtType : EventType) : Prop :=
  s.evtType = evtType

/-- Specification-side predicate for claim C2: the spec bound region equals the event
region, or the spec regionName is the wildcard and its bound region is absent. -/
def regionMatchesSpec (s : EventSpec) (regn : Option Region) : Prop :=
  s.region = regn ∨ (s.regionName = "*" ∧ s.region = Option.none)

/-- Specification-side mapping for claim C1: the event type determined by a raw kind
(move to move_inside, press to press, release to release). -/
def rawToEvt : RawEvent → EventType
  | RawEvent.press => EventType.press
  | RawEvent.move => EventType.move_inside
  | RawEvent.release => EventType.release

/-- Sample region named A, identity 0, box from (0, 0) to (10, 10). -/
def regA : Region :=
  { id := 0, name := "A", x := 0, y := 0, w := 10, h := 10, imageLoc := "" }

/-- Sample region named B, identity 1, box from (5, 5) to (15, 15). -/
def regB : Region :=
  { id := 1, name := "B", x := 5, y := 5, w := 10, h := 10, imageLoc := "" }

/-- Sample region named C, identity 2, box from (100, 100) to (101, 101). -/
def regC : Region :=
  { id := 2, name := "C", x := 100, y := 100, w := 1, h := 1, imageLoc := "" }

/-- Sample event spec matching a press over region A. -/
def spec1 : EventSpec :=
  { evtType := EventType.press, regionName := "A", region := Option.some regA }

/-- Sample print action. -/
def act1 : Action :=
  { actType := ActionType.print, onRegionName := "", param := "hi",
    onRegion := Option.none }

/-- Sample transition: on press over A, print and stay in state 0. -/
def tr1 : Transition :=
  { onEvent := spec1, actions := [act1], targetName := "S", target := Option.some 0 }

/-- Sample state with the single transition tr1. -/
def st1 : State := { name := "S", transitions := [tr1] }

/-- Sample live FSM over regions A and B with the single state st1. -/
def m1 : FSM :=
  { regions := [regA, regB], states := [st1], startState := Option.some 0,
    currentState := Option.some 0, images := [(0, ""), (1, "")], output := [] }

/-- Sample interactor with m1 installed, whose previous pick list holds region C. -/
def it1 : FSMInteractor :=
  { x := 0, y := 0, fsm := Option.some m1, lastPickedRegions := [regC] }

/-- Sample interactor with no FSM installed. -/
def it0 : FSMInteractor :=
  { x := 0, y := 0, fsm := Option.none, lastPickedRegions := [] }

/-- Sample event spec with the any event type and the wildcard region name. -/
def specAny : EventSpec :=
  { evtType := EventType.any, regionName := "*", region := Option.none }

/-- Sample event spec with the nevermatch event type naming the existing region A. -/
def specNever : EventSpec :=
  { evtType := EventType.nevermatch, regionName := "A", region := Option.none }

/-- Sample malformed description: an empty region list and an empty state list (the
spec requires a non-empty state list, so this description must be rejected). -/
def badDesc : FSM_json := { regions := Option.some [], states := Option.some [] }

/-- Helper: the log component of one delivery. -/
theorem send_log (p : FSM × List Evt) (t : EventType) (reg : Option Region) :
    (FSM.send p t reg).2 = p.2 ++ [(t, reg)] := rfl

/-- Helper: logging fold over a region list delivering one fixed event type per region
appends exactly one logged event per region, in list order. -/
theorem foldl_send_log (t : EventType) (xs : List Region) :
    ∀ p : FSM × List Evt,
      (xs.foldl (fun s region => FSM.send s t (Option.some region)) p).2 =
        p.2 ++ xs.map (fun region => (t, Option.some region)) := by
  induction xs with
  | nil => intro p; simp
  | cons a rest ih =>
    intro p
    rw [List.foldl_cons, ih]
    simp [FSM.send]

/-- Helper: when some transition of the list matches, the scan loop fires the first
matching transition: it runs exactly its actions and moves to its target. -/
theorem actLoop_eq_of_find_some (m : FSM) (t : EventType) (reg : Option Region)
    (tr : Transition) :
    ∀ trs : List Transition,
      trs.find? (fun tr2 => tr2.matches t reg) = Option.some tr →
      m.actLoop t reg trs =
        ({ m.runActions tr.actions t reg with currentState := tr.target },
         tr.actions.map (fun a => (a, t, reg))) := by
  intro trs
  induction trs with
  | nil => intro h; simp at h
  | cons a rest ih =>
    intro h
    rw [List.find?_cons] at h
    by_cases hm : a.matches t reg = true
    · simp [hm] at h
      subst h
      simp [FSM.actLoop, hm]
    · simp [hm] at h
      simp [FSM.actLoop, hm, ih h]

/-- Helper: when no transition of the list matches, the scan loop changes nothing and
executes nothing. -/
theorem actLoop_eq_of_find_none (m : FSM) (t : EventType) (reg : Option Region) :
    ∀ trs : List Transition,
      trs.find? (fun tr2 => tr2.matches t reg) = Option.none →
      m.actLoop t reg trs = (m, []) := by
  intro trs
  induction trs with
  | nil => intro _; rfl
  | cons a rest ih =>
    intro h
    rw [List.find?_cons] at h
    by_cases hm : a.matches t reg = true
    · simp [hm] at h
    · have hm2 : a.matches t reg = false := by simpa using hm
      rw [hm2] at h
      simp [FSM.actLoop, hm, ih h]

/-- Claim C2: for every EventSpec and every event, match returns false when the spec
event type is nevermatch; returns regionMatches alone for any; returns eventMatches
alone for release_none; and returns eventMatches AND regionMatches for every other
spec event type, where eventMatches means the spec event type equals the event type
and regionMatches means the spec bound region equals the event region or the spec
regionName is the wildcard with an absent bound region. -/
theorem C2_match_semantics (s : EventSpec) (t : EventType) (regn : Option Region) :
    (s.evtType = EventType.nevermatch → s.matches t regn = false) ∧
    (s.evtType = EventType.any →
      (s.matches t regn = true ↔ regionMatchesSpec s regn)) ∧
    (s.evtType = EventType.release_none →
      (s.matches t regn = true ↔ eventMatchesSpec s t)) ∧
    (s.evtType ≠ EventType.nevermatch → s.evtType ≠ EventType.any →
      s.evtType ≠ EventType.release_none →
      (s.matches t regn = true ↔ (eventMatchesSpec s t ∧ regionMatchesSpec s regn))) := by
  rcases s with ⟨et, rn, r⟩
  cases et <;>
    simp [EventSpec.matches, eventMatchesSpec, regionMatchesSpec]

/-- Witness for claim C2: the any branch evaluated at a concrete spec and event. -/
theorem C2_match_semantics_witness :
    specAny.matches EventType.press Option.none = true ↔
      regionMatchesSpec specAny Option.none :=
  (C2_match_semantics specAny EventType.press Option.none).2.1 rfl

/-- Claim C4: with an FSM installed, a region of the FSM is in the pick result exactly
when the point lies inside its bounding box with all four edges inclusive, and the
result sequence is exactly the reverse of region declaration order restricted to the
contained regions. -/
theorem C4_pick_membership_and_order (it : FSMInteractor) (m : FSM) (px py : Int)
    (h : it.fsm = Option.some m) :
    (∀ R ∈ m.regions,
      (R ∈ it.pick px py ↔
        (R.x ≤ px ∧ px ≤ R.x + R.w ∧ R.y ≤ py ∧ py ≤ R.y + R.h))) ∧
    it.pick px py = (m.regions.filter (fun reg =>
      decide (reg.x ≤ px ∧ px ≤ reg.x + reg.w ∧
              reg.y ≤ py ∧ py ≤ reg.y + reg.h))).reverse := by
  unfold FSMInteractor.pick
  rw [h]
  constructor
  · intro R hR
    simp [List.mem_reverse, List.mem_filter, hR]
  · rfl

/-- Witness for claim C4: the pick characterization evaluated on the sample interactor
at the point (6, 6), which lies in both declared regions. -/
theorem C4_pick_membership_and_order_witness :
    (∀ R ∈ m1.regions,
      (R ∈ it1.pick 6 6 ↔
        (R.x ≤ 6 ∧ 6 ≤ R.x + R.w ∧ R.y ≤ 6 ∧ 6 ≤ R.y + R.h))) ∧
    it1.pick 6 6 = (m1.regions.filter (fun reg =>
      decide (reg.x ≤ 6 ∧ 6 ≤ reg.x + reg.w ∧
              reg.y ≤ 6 ∧ 6 ≤ reg.y + reg.h))).reverse :=
  C4_pick_membership_and_order it1 m1 6 6 rfl

/-- Claim C9: reset restores currentState to startState and changes nothing else; in
particular every region image reference is unchanged; and for every constructed FSM
the start state is the first declared state (absent only for an empty state list). -/
theorem C9_reset_restores_start (m : FSM) :
    (m.reset).currentState = m.startState ∧ (m.reset).startState = m.startState ∧
    (m.reset).regions = m.regions ∧ (m.reset).states = m.states ∧
    (m.reset).images = m.images ∧ (m.reset).output = m.output ∧
    (∀ (regions : List Region) (states : List State),
      ((FSM.construct regions states).1).startState =
        if states.isEmpty then Option.none else Option.some 0) := by
  refine ⟨rfl, rfl, rfl, rfl, rfl, rfl, ?_⟩
  intro regions states
  rfl

/-- Claim C10: an FSM constructed from an empty state list has absent start and current
states, and every actOnEvent call on it returns with no action executed and no state
change: actOnEvent is a total safe no-op on such an FSM. -/
theorem C10_empty_state_list_noop (regions : List Region) (t : EventType)
    (reg : Option Region) :
    ((FSM.construct regions []).1).startState = Option.none ∧
    ((FSM.construct regions []).1).currentState = Option.none ∧
    ((FSM.construct regions []).1).actOnEvent t reg =
      ((FSM.construct regions []).1, []) := by
  exact ⟨rfl, rfl, rfl⟩

/-- Claim C8 (code bug evaluation): drawing the sample interactor with the debugging
flag passed as false still issues one render request per region, in declared order and
with origins translated by the region positions, but every request carries the
debugging flag true, because the source reassigns the flag to true inside the loop. -/
theorem C8_debug_flag_forced_true :
    it1.draw false =
      [{ region := regA, originX := 0, originY := 0, showDebugging := true },
       { region := regB, originX := 5, originY := 5, showDebugging := true }] := by
  rfl

/-- Claim C3: when some transition of the current state matches, actOnEvent fires the
first matching transition in declared order: it executes exactly the actions of that
transition in declared order, each action receiving the triggering event type and
region, then currentState becomes the resolved target of that transition, and no
further transition is evaluated (the result is fully determined by the first match). -/
theorem C3_first_matching_transition_fires (m : FSM) (i : Nat) (st : State)
    (t : EventType) (reg : Option Region) (tr : Transition)
    (hc : m.currentState = Option.some i) (hst : m.states[i]? = Option.some st)
    (hfirst : st.transitions.find? (fun tr2 => tr2.matches t reg) = Option.some tr) :
    m.actOnEvent t reg =
      ({ m.runActions tr.actions t reg with currentState := tr.target },
       tr.actions.map (fun a => (a, t, reg))) := by
  unfold FSM.actOnEvent
  rw [hc]
  simp only [hst]
  exact actLoop_eq_of_find_some m t reg tr st.transitions hfirst

/-- Witness for claim C3: the sample FSM fires its single press transition. -/
theorem C3_first_matching_transition_fires_witness :
    m1.actOnEvent EventType.press (Option.some regA) =
      ({ m1.runActions tr1.actions EventType.press (Option.some regA) with
          currentState := tr1.target },
       tr1.actions.map (fun a => (a, EventType.press, Option.some regA))) :=
  C3_first_matching_transition_fires m1 0 st1 EventType.press (Option.some regA) tr1
    rfl rfl rfl

/-- Claim C6: when no transition of the current state matches, actOnEvent leaves the
whole FSM unchanged (in particular currentState), executes no action and raises no
error: the event is silently absorbed. -/
theorem C6_no_match_is_noop (m : FSM) (i : Nat) (st : State) (t : EventType)
    (reg : Option Region)
    (hc : m.currentState = Option.some i) (hst : m.states[i]? = Option.some st)
    (hnone : st.transitions.find? (fun tr2 => tr2.matches t reg) = Option.none) :
    m.actOnEvent t reg = (m, []) := by
  unfold FSM.actOnEvent
  rw [hc]
  simp only [hst]
  exact actLoop_eq_of_find_none m t reg st.transitions hnone

/-- Witness for claim C6: a release with no region matches no transition of the sample
FSM and is absorbed. -/
theorem C6_no_match_is_noop_witness :
    m1.actOnEvent EventType.release Option.none = (m1, []) :=
  C6_no_match_is_noop m1 0 st1 EventType.release Option.none rfl rfl rfl

/-- Counterexample to claim C7: binding an EventSpec whose event type is nevermatch but
whose region name matches an existing region leaves the bound region present, not
absent: the source performs the name lookup before the nevermatch exemption. -/
theorem C7_nevermatch_binds_existing_region :
    (specNever.bindRegion [regA]).1.region ≠ Option.none := by
  decide

/-- Claim C7 as amended: after bindRegion, the bound region is absent when regionName
is the wildcard; otherwise, when some region of the supplied collection has exactly the
spec region name, the first such region is bound regardless of the event type
(including nevermatch); when the lookup fails, the bound region is left unchanged and
the failure is silent exactly when the event type is nevermatch, or the region name is
empty with event type release_none or any; in every other lookup failure an error is
reported. -/
theorem C7_bind_region_amended (s : EventSpec) (regionList : List Region) :
    (s.regionName = "*" →
      (s.bindRegion regionList).1.region = Option.none ∧
      (s.bindRegion regionList).2 = []) ∧
    (∀ r, s.regionName ≠ "*" →
      regionList.find? (fun reg => s.regionName == reg.name) = Option.some r →
      (s.bindRegion regionList).1.region = Option.some r ∧
      (s.bindRegion regionList).2 = []) ∧
    (s.regionName ≠ "*" →
      regionList.find? (fun reg => s.regionName == reg.name) = Option.none →
      ((s.bindRegion regionList).1.region = s.region ∧
       ((s.bindRegion regionList).2 = [] ↔
         (s.evtType = EventType.nevermatch ∨
          ((s.evtType = EventType.release_none ∨ s.evtType = EventType.any) ∧
           s.regionName = ""))))) := by
  refine ⟨?_, ?_, ?_⟩
  · intro hw
    simp [EventSpec.bindRegion, hw]
  · intro r hw hf
    simp [EventSpec.bindRegion, hw, hf]
  · intro hw hf
    have hw2 : (s.regionName == "*") = false := by simpa using hw
    rcases s with ⟨et, rn, r0⟩
    by_cases he : rn = ""
    · subst he
      cases et <;> simp [EventSpec.bindRegion, hw2, hf]
    · cases et <;> simp [EventSpec.bindRegion, hw2, hf, he]

/-- Witness for claim C7 as amended: the wildcard case on a concrete spec. -/
theorem C7_bind_region_amended_witness :
    (specAny.bindRegion []).1.region = Option.none ∧
    (specAny.bindRegion []).2 = [] :=
  (C7_bind_region_amended specAny []).1 rfl

/-- Counterexample to claim C5: loading a description with an empty state list reports
a construction error, yet a partially constructed FSM is still installed: the FSM
reference of the interactor is not cleared. -/
theorem C5_partial_fsm_installed :
    (it0.startLoadFromJson (LoadResult.parsed badDesc)).2 ≠ [] ∧
    (it0.startLoadFromJson (LoadResult.parsed badDesc)).1.fsm ≠ Option.none := by
  decide

/-- Claim C5 as amended: a failed fetch reports an error and clears the FSM reference;
a parse error leaves the interactor unchanged with nothing reported; a malformed
description (here: an empty state list) reports an error but does not abort
construction: FSM.fromJson still returns an FSM — with no states and an unbound
current state — and that partial FSM is installed as the interactor FSM reference. -/
theorem C5_load_failure_amended (it : FSMInteractor) (d : FSM_json)
    (hbad : d.states = Option.some []) :
    (it.startLoadFromJson LoadResult.fetchFailed).1.fsm = Option.none ∧
    (it.startLoadFromJson LoadResult.fetchFailed).2 ≠ [] ∧
    (it.startLoadFromJson LoadResult.parseError).1 = it ∧
    "No states provide for FSM in FSM.fromJson()" ∈
      (it.startLoadFromJson (LoadResult.parsed d)).2 ∧
    (it.startLoadFromJson (LoadResult.parsed d)).1.fsm =
      Option.some (FSM.fromJson d).1 ∧
    (FSM.fromJson d).1.states = [] ∧
    (FSM.fromJson d).1.currentState = Option.none := by
  refine ⟨rfl, by simp [FSMInteractor.startLoadFromJson], rfl, ?_, rfl, ?_, ?_⟩
  · simp [FSMInteractor.startLoadFromJson, FSM.fromJson, hbad, collectNamed,
      FSM.construct]
  · simp [FSM.fromJson, hbad, collectNamed, FSM.construct]
  · simp [FSM.fromJson, hbad, collectNamed, FSM.construct]

/-- Claim C1: with an FSM installed, the events delivered to FSM.actOnEvent by
dispatchRawEvent are, in order: one exit event per region of the previous pick list
not in the current pick list (in previous-list order), then one enter event per region
of the current pick list not in the previous list (in current-list order), then one
kind-determined event per region of the current list in current order (move gives
move_inside, press gives press, release gives release), with a single regionless
release_none event delivered instead exactly when the kind is release and the current
list is empty; and afterwards the stored previous pick list equals the current pick
list regardless of whether any transition fired. -/
theorem C1_dispatch_event_order (it : FSMInteractor) (m : FSM) (what : RawEvent)
    (localX localY : Int) (h : it.fsm = Option.some m) :
    (it.dispatchRawEvent what localX localY).2 =
      (it.lastPickedRegions.filter
          (fun r => !((it.pick localX localY).contains r))).map
        (fun r => (EventType.exit, Option.some r)) ++
      ((it.pick localX localY).filter
          (fun r => !(it.lastPickedRegions.contains r))).map
        (fun r => (EventType.enter, Option.some r)) ++
      (it.pick localX localY).map (fun r => (rawToEvt what, Option.some r)) ++
      (if what = RawEvent.release ∧ it.pick localX localY = [] then
        [(EventType.release_none, (Option.none : Option Region))] else []) ∧
    (it.dispatchRawEvent what localX localY).1.lastPickedRegions =
      it.pick localX localY := by
  obtain ⟨ix, iy, ifsm, ilast⟩ := it
  change ifsm = Option.some m at h
  subst h
  cases what with
  | press =>
    constructor
    · simp [FSMInteractor.dispatchRawEvent, foldl_send_log, send_log, rawToEvt]
    · simp [FSMInteractor.dispatchRawEvent]
  | move =>
    constructor
    · simp [FSMInteractor.dispatchRawEvent, foldl_send_log, send_log, rawToEvt]
    · simp [FSMInteractor.dispatchRawEvent]
  | release =>
    by_cases hnil :
        FSMInteractor.pick
          (FSMInteractor.mk ix iy (Option.some m) ilast) localX localY = []
    · constructor
      · simp [FSMInteractor.dispatchRawEvent, foldl_send_log, send_log, rawToEvt, hnil]
      · simp [FSMInteractor.dispatchRawEvent]
    · constructor
      · simp [FSMInteractor.dispatchRawEvent, foldl_send_log, send_log, rawToEvt, hnil,
          List.length_eq_zero]
      · simp [FSMInteractor.dispatchRawEvent]

/-- Witness for claim C1: a press at (6, 6) on the sample interactor, whose previous
pick list holds region C while the point lies inside regions A and B. -/
theorem C1_dispatch_event_order_witness :
    (it1.dispatchRawEvent RawEvent.press 6 6).2 =
      (it1.lastPickedRegions.filter
          (fun r => !((it1.pick 6 6).contains r))).map
        (fun r => (EventType.exit, Option.some r)) ++
      ((it1.pick 6 6).filter
          (fun r => !(it1.lastPickedRegions.contains r))).map
        (fun r => (EventType.enter, Option.some r)) ++
      (it1.pick 6 6).map (fun r => (rawToEvt RawEvent.press, Option.some r)) ++
      (if RawEvent.press = RawEvent.release ∧ it1.pick 6 6 = [] then
        [(EventType.release_none, (Option.none : Option Region))] else []) ∧
    (it1.dispatchRawEvent RawEvent.press 6 6).1.lastPickedRegions = it1.pick 6 6 :=
  C1_dispatch_event_order it1 m1 RawEvent.press 6 6 rfl

/-- Witness for claim C5 as amended: evaluated on the empty-FSM interactor and the
malformed sample description. -/
theorem C5_load_failure_amended_witness :
    (it0.startLoadFromJson LoadResult.fetchFailed).1.fsm = Option.none ∧
    (it0.startLoadFromJson LoadResult.fetchFailed).2 ≠ [] ∧
    (it0.startLoadFromJson LoadResult.parseError).1 = it0 ∧
    "No states provide for FSM in FSM.fromJson()" ∈
      (it0.startLoadFromJson (LoadResult.parsed badDesc)).2 ∧
    (it0.startLoadFromJson (LoadResult.parsed badDesc)).1.fsm =
      Option.some (FSM.fromJson badDesc).1 ∧
    (FSM.fromJson badDesc).1.states = [] ∧
    (FSM.fromJson badDesc).1.currentState = Option.none :=
  C5_load_failure_amended it0 badDesc rfl

end SSUI
